import Mathlib

/-!
Shallow embedding of the `zeste-backend` Flask application (`src/app.py`).

The embedding models:
* `slugify` — the helper turning a name into a URL slug (`app.py`, lines
  139-141).  Python's `str.lower` and the regex classes `\s`/`\W` are
  modelled at the ASCII level (`Char.toLower`, alphanumeric-or-underscore).
* the database state — the four SQLAlchemy models `User`, `Restaurant`,
  `Server`, `Dish` become lists of rows; the UNIQUE / NOT NULL column
  constraints of the schema are enforced at each `db.session.commit()`:
  a violating commit raises `IntegrityError`, which the webhook handler
  turns into a rollback (state unchanged) and a 200 response.
* `clerk_webhook` — the `/api/clerk-webhook` endpoint (lines 161-227).
  Signature verification by the `svix` library is external code and is
  modelled as an oracle: the endpoint receives `none` when verification
  fails and `some event` when it succeeds.
* `requires_auth` — the authentication decorator (lines 47-82).  The
  remote introspection call is modelled as an oracle from the extracted
  token to a structured response.
* `restaurant_settings` — the protected GET/PUT endpoint (lines 235-278),
  with `get_restaurant_from_claims`, `is_admin` and `allowed_file`.
  `werkzeug.secure_filename` is external library code and is passed in
  as a `sanitize` function parameter.

Results are `(HTTP status, database state)` pairs; an error response
leaves the state unchanged, mirroring `db.session.rollback()`.
-/

namespace Zeste

/-! ### slugify (`app.py` lines 139-141) -/

/-- ASCII model of a Python word character for the regex `\w`:
letters, digits or underscore (so `[\s\W]+` matches exactly the maximal
runs of non-word characters, since every whitespace char is non-word). -/
def isWordChar (c : Char) : Bool :=
  c.isAlphanum || c == '_'

/-- `re.sub(r'[\s\W]+', '-', text)`: replace every maximal run of
non-word characters by a single dash (a non-word character emits the
dash only when it closes its run, i.e. the next character is a word
character or the end of the string). -/
def squashNonWord : List Char → List Char
  | [] => []
  | [c] => if isWordChar c then [c] else ['-']
  | c :: d :: cs =>
    if isWordChar c then c :: squashNonWord (d :: cs)
    else if isWordChar d then '-' :: squashNonWord (d :: cs)
    else squashNonWord (d :: cs)

/-- Python `str.strip('-')`: remove leading and trailing dashes. -/
def stripDashes (l : List Char) : List Char :=
  ((l.dropWhile (fun c => c == '-')).reverse.dropWhile (fun c => c == '-')).reverse

/-- `slugify(text)`: lower-case, collapse non-word runs to `-`, strip
dashes at both ends (`app.py` lines 139-141, ASCII model). -/
def slugify (s : String) : String :=
  ⟨stripDashes (squashNonWord (s.data.map Char.toLower))⟩

/-! ### Database rows (`app.py` lines 99-133)

Rows carry the column values; `Option` marks nullable columns.
`Restaurant.id` is the integer primary key referenced by
`Server.restaurant_id` and `Dish.restaurant_id`. -/

structure UserRow where
  clerk_id : String
  email : String
  first_name : Option String
  last_name : Option String
deriving Repr, DecidableEq

structure RestaurantRow where
  id : Nat
  clerk_org_id : String
  name : String
  slug : String
  logo_url : Option String
  primary_color : String
  google_link : Option String
  tripadvisor_link : Option String
  enabled_languages : List String
deriving Repr, DecidableEq

structure ServerRow where
  user_id : Nat
  restaurant_id : Nat
  name : String
  avatar_url : Option String
deriving Repr, DecidableEq

structure DishRow where
  name : String
  category : String
  restaurant_id : Nat
deriving Repr, DecidableEq

/-- The relational state: one list per table, plus the next fresh
primary key for `Restaurant`. -/
structure Db where
  users : List UserRow := []
  restaurants : List RestaurantRow := []
  servers : List ServerRow := []
  dishes : List DishRow := []
  nextId : Nat := 1
deriving Repr, DecidableEq

/-- A freshly inserted `Restaurant` row: column defaults
`primary_color='#D69E2E'`, `enabled_languages=['fr','en']`, other
nullable columns NULL (`app.py` lines 106-115). -/
def mkRestaurant (id : Nat) (cid nm sl : String) : RestaurantRow :=
  { id := id, clerk_org_id := cid, name := nm, slug := sl,
    logo_url := none, primary_color := "#D69E2E",
    google_link := none, tripadvisor_link := none,
    enabled_languages := ["fr", "en"] }

/-! ### Webhook events (`app.py` lines 161-227) -/

/-- A verified Clerk webhook event.  Fields are `Option`s because the
handler reads them with `data.get(...)`, which yields `None` when the
key is absent.  `userCreated` carries the `email_addresses` list (each
entry's `email_address` may itself be absent).  `unhandled` stands for
any event type the endpoint does not match. -/
inductive WebhookEvent where
  | userCreated (id : Option String) (emailAddresses : List (Option String))
      (firstName lastName : Option String)
  | organizationCreated (id nm sl : Option String)
  | organizationUpdated (id nm sl : Option String)
  | organizationDeleted (id : Option String)
  | unhandled
deriving Repr, DecidableEq

/-- Split a list at the first element satisfying `p`:
`some (before, hit, after)`, or `none` when no element matches.  Models
`query.filter_by(...).first()` followed by an in-place update/delete of
that row. -/
def splitFirst (p : α → Bool) : List α → Option (List α × α × List α)
  | [] => none
  | x :: xs =>
    if p x then some ([], x, xs)
    else (splitFirst p xs).map (fun y => (x :: y.1, y.2.1, y.2.2))

/-- `data.get("slug") or slugify(data.get("name"))`: the explicit slug
when truthy (present and non-empty), otherwise `slugify` of the name.
`none` is the case where the fallback is taken but the name is absent —
in Python `slugify(None)` raises, which the endpoint's generic handler
turns into a 500 rollback. -/
def eventSlug (slugOpt nameOpt : Option String) : Option String :=
  match slugOpt with
  | some sl => if sl = "" then nameOpt.map slugify else some sl
  | none => nameOpt.map slugify

/-- Process one verified webhook event (`app.py` lines 172-227).
Returns `(status, new state)`.  A commit that would violate a UNIQUE or
NOT NULL constraint raises `IntegrityError`, which the handler catches:
rollback and status 200 (lines 219-221).  Any other exception gives a
500 rollback (lines 222-225). -/
def processEvent (s : Db) : WebhookEvent → Nat × Db
  | .userCreated idOpt emails firstName lastName =>
    -- email := data.get("email_addresses")[0].get("email_address") if ... else None
    let emailOpt : Option String := match emails with | [] => none | e :: _ => e
    match emailOpt with
    | none => (200, s)
    | some email =>
      if email = "" then (200, s)   -- `if not email` also drops the empty string
      else
        match idOpt with
        | none => (200, s)          -- NULL clerk_id: IntegrityError, rollback
        | some cid =>
          if s.users.all (fun u => (u.clerk_id != cid) && (u.email != email)) then
            (200, { s with users := s.users ++ [⟨cid, email, firstName, lastName⟩] })
          else (200, s)             -- duplicate clerk_id or email: rollback
  | .organizationCreated idOpt nameOpt slugOpt =>
    match eventSlug slugOpt nameOpt with
    | none => (500, s)              -- slugify(None) raises: 500 rollback
    | some sl =>
      match idOpt, nameOpt with
      | some cid, some nm =>
        if s.restaurants.all (fun r => (r.clerk_org_id != cid) && (r.slug != sl)) then
          (200, { s with restaurants := s.restaurants ++ [mkRestaurant s.nextId cid nm sl],
                         nextId := s.nextId + 1 })
        else (200, s)               -- duplicate clerk_org_id or slug: rollback
      | _, _ => (200, s)            -- NULL clerk_org_id or name: IntegrityError
  | .organizationUpdated idOpt nameOpt slugOpt =>
    match idOpt with
    | none => (200, s)
    | some cid =>
      match splitFirst (fun r => r.clerk_org_id == cid) s.restaurants with
      | none => (200, s)            -- no matching restaurant: nothing happens
      | some (pre, r, suf) =>
        match eventSlug slugOpt nameOpt with
        | none => (500, s)          -- slugify(None) raises: 500 rollback
        | some sl =>
          match nameOpt with
          | none => (200, s)        -- NULL name: IntegrityError, rollback
          | some nm =>
            if (pre ++ suf).all (fun x => x.slug != sl) then
              (200, { s with restaurants := pre ++ { r with name := nm, slug := sl } :: suf })
            else (200, s)           -- slug collides with another row: rollback
  | .organizationDeleted idOpt =>
    match idOpt with
    | none => (200, s)
    | some cid =>
      match s.restaurants.find? (fun r => r.clerk_org_id == cid) with
      | none => (200, s)
      | some r =>
        -- cascade="all, delete-orphan" removes the servers and dishes too
        (200, { s with
          restaurants := s.restaurants.filter (fun x => x.id != r.id),
          servers := s.servers.filter (fun x => x.restaurant_id != r.id),
          dishes := s.dishes.filter (fun x => x.restaurant_id != r.id) })
  | .unhandled => (200, s)

/-- The `/api/clerk-webhook` endpoint.  `verified` is the outcome of
`svix`'s `Webhook.verify`: `none` models `WebhookVerificationError`
(status 400, `"Invalid signature"`, nothing touched), `some e` a
correctly signed event, dispatched to `processEvent`. -/
def clerk_webhook (verified : Option WebhookEvent) (s : Db) : Nat × Db :=
  match verified with
  | none => (400, s)
  | some e => processEvent s e

/-! ### Authentication (`app.py` lines 47-82) -/

/-- The claims map extracted from a token introspection response; the
fields the application reads.  Absent keys are `none`. -/
structure ClaimsMap where
  org_id : Option String := none
  org_role : Option String := none
  sub : Option String := none
deriving Repr, DecidableEq

/-- The identity provider's answer to `POST /tokens/introspect`:
HTTP status, the `active` flag (absent = false) and the nested
`claims` object when present. -/
structure IntrospectionResponse where
  status : Nat
  active : Bool
  claims : Option ClaimsMap
deriving Repr, DecidableEq

/-- Python `str.split(' ')`: split on every single space, keeping empty
fields (`"".split(' ') == ['']`). -/
def pySplitSpaces : List Char → List (List Char)
  | [] => [[]]
  | c :: cs =>
    if c = ' ' then [] :: pySplitSpaces cs
    else
      match pySplitSpaces cs with
      | [] => [[c]]
      | f :: rest => (c :: f) :: rest

/-- The `requires_auth` decorator (`app.py` lines 47-82).  `introspect`
is the oracle for the provider's response to the token the code
extracts as `auth_header.split(' ')[1]`.  Result `none` means the
request dies with 401 Unauthorized and the wrapped handler never runs
(a missing header, a header without a second space-separated field —
an `IndexError` swallowed by the generic `except` —, a non-200
introspection status, or an inactive token); `some c` means the handler
runs with `request.claims = c`, the response's claims defaulting to the
empty map. -/
def requires_auth (introspect : String → IntrospectionResponse)
    (authHeader : Option String) : Option ClaimsMap :=
  match authHeader with
  | none => none
  | some h =>
    match (pySplitSpaces h.data).get? 1 with
    | none => none
    | some tok =>
      let resp := introspect ⟨tok⟩
      if resp.status = 200 then
        if resp.active then some (resp.claims.getD {}) else none
      else none

/-! ### Restaurant settings endpoint (`app.py` lines 26-27, 143-158, 235-278) -/

def ALLOWED_EXTENSIONS : List String := ["png", "jpg", "jpeg", "gif"]

/-- `filename.rsplit('.', 1)[1].lower()`: the part after the last dot,
lower-cased (ASCII model). -/
def extAfterLastDot (f : String) : String :=
  ⟨(f.data.reverse.takeWhile (fun c => c != '.')).reverse.map Char.toLower⟩

/-- `allowed_file` (`app.py` lines 26-27). -/
def allowed_file (f : String) : Bool :=
  f.data.contains '.' && ALLOWED_EXTENSIONS.contains (extAfterLastDot f)

/-- `is_admin` (`app.py` lines 154-158): `org_role in ['org:admin', 'admin']`. -/
def is_admin (c : ClaimsMap) : Bool :=
  c.org_role == some "org:admin" || c.org_role == some "admin"

inductive HttpMethod where
  | GET
  | PUT
deriving Repr, DecidableEq

/-- The PUT form data and the optional uploaded `logo` file (modelled
by its filename; an empty filename models an empty file part). -/
structure SettingsForm where
  name : Option String := none
  primaryColor : Option String := none
  googleLink : Option String := none
  tripadvisorLink : Option String := none
  logo : Option String := none
deriving Repr, DecidableEq

/-- The logo part of the PUT branch (`app.py` lines 262-267): the file is
stored only when present with a non-empty, allowed filename, the stored name
being `secure_filename(f"{clerk_org_id}_{filename}")` with `secure_filename`
supplied as the external `sanitize` function. -/
def applyLogo (sanitize : String → String) (r : RestaurantRow) :
    Option String → RestaurantRow
  | none => r
  | some fn =>
    if fn != "" && allowed_file fn then
      { r with logo_url := some (sanitize (r.clerk_org_id ++ "_" ++ fn)) }
    else r

/-- The body of the PUT branch (`app.py` lines 256-267): each form field
overwrites the column when the key is present (`request.form.get` keeps the
old value otherwise), then the uploaded logo is handled (`clerk_org_id` is
not touched by the form, so reading it from the updated row is the same as
in the code). -/
def applyPut (sanitize : String → String) (r : RestaurantRow)
    (form : SettingsForm) : RestaurantRow :=
  applyLogo sanitize
    { r with
      name := form.name.getD r.name,
      primary_color := form.primaryColor.getD r.primary_color,
      google_link := match form.googleLink with | some v => some v | none => r.google_link,
      tripadvisor_link := match form.tripadvisorLink with | some v => some v | none => r.tripadvisor_link }
    form.logo

/-- The `/api/v1/restaurant/settings` endpoint after `requires_auth`
(`app.py` lines 235-278): `get_restaurant_from_claims` yields 401 when
the claims' `org_id` is missing or empty (`if not org_id`), 404 when no
restaurant has that `clerk_org_id`; a non-admin gets 403; the GET branch
only reads; the PUT branch commits `applyPut` on the matched row. -/
def restaurant_settings (sanitize : String → String) (claims : ClaimsMap)
    (method : HttpMethod) (form : SettingsForm) (s : Db) : Nat × Db :=
  match claims.org_id with
  | none => (401, s)
  | some oid =>
    if oid = "" then (401, s)
    else
      match splitFirst (fun r => r.clerk_org_id == oid) s.restaurants with
      | none => (404, s)
      | some (pre, r, suf) =>
        if is_admin claims then
          match method with
          | .GET => (200, s)
          | .PUT => (200, { s with restaurants := pre ++ applyPut sanitize r form :: suf })
        else (403, s)

/-! ### Uniqueness invariant (claim C4) -/

/-- The `User` table's UNIQUE columns: `clerk_id` and `email` are
pairwise distinct across rows. -/
def UsersDistinct (l : List UserRow) : Prop :=
  l.Pairwise (fun a b => a.clerk_id ≠ b.clerk_id ∧ a.email ≠ b.email)

/-- The `Restaurant` table's UNIQUE columns: `clerk_org_id` and `slug`
are pairwise distinct across rows. -/
def RestaurantsDistinct (l : List RestaurantRow) : Prop :=
  l.Pairwise (fun a b => a.clerk_org_id ≠ b.clerk_org_id ∧ a.slug ≠ b.slug)

/-- The uniqueness invariant of the schema. -/
def DbInv (s : Db) : Prop :=
  UsersDistinct s.users ∧ RestaurantsDistinct s.restaurants

/-- Adjacent characters are never both dashes (used to characterise
`squashNonWord` output). -/
def NoDoubleDash (l : List Char) : Prop :=
  List.Chain' (fun a b => ¬(a = '-' ∧ b = '-')) l

/-! ## Helper lemmas -/

theorem toLower_toNat (c : Char) :
    (Char.toLower c).toNat =
      if 65 ≤ c.toNat ∧ c.toNat ≤ 90 then c.toNat + 32 else c.toNat := by
  unfold Char.toLower
  by_cases h : 65 ≤ c.toNat ∧ c.toNat ≤ 90
  · rw [if_pos ⟨h.1, h.2⟩, if_pos h]
    have hv : (c.toNat + 32).isValidChar := Or.inl (by omega)
    unfold Char.ofNat
    rw [dif_pos hv]
    rfl
  · rw [if_neg, if_neg h]
    intro hc
    exact h ⟨hc.1, hc.2⟩

theorem toLower_toLower (c : Char) : c.toLower.toLower = c.toLower := by
  have h1 := toLower_toNat c
  have h2 := toLower_toNat c.toLower
  by_cases h : 65 ≤ c.toNat ∧ c.toNat ≤ 90
  · rw [if_pos h] at h1
    rw [h1, if_neg (by omega)] at h2
    exact Char.ext (UInt32.ext (h2.trans h1.symm))
  · rw [if_neg h] at h1
    have hfix : c.toLower = c := Char.ext (UInt32.ext h1)
    rw [hfix, hfix]

theorem isUpper_false_of_toLower_fixed {c : Char} (h : c.toLower = c) :
    c.isUpper = false := by
  by_contra hne
  have hu : c.isUpper = true := by revert hne; cases c.isUpper <;> simp
  have hb : 65 ≤ c.toNat ∧ c.toNat ≤ 90 := by
    unfold Char.isUpper at hu
    simp only [Bool.and_eq_true, decide_eq_true_eq] at hu
    exact ⟨hu.1, hu.2⟩
  have := toLower_toNat c
  rw [if_pos hb, h] at this
  omega

theorem isWordChar_ne_dash {c : Char} (h : isWordChar c = true) : c ≠ '-' := by
  intro he
  subst he
  simp [isWordChar] at h

theorem isWordChar_not_whitespace {c : Char} (h : isWordChar c = true) :
    c.isWhitespace = false := by
  by_contra hne
  have hw : c.isWhitespace = true := by revert hne; cases c.isWhitespace <;> simp
  unfold Char.isWhitespace at hw
  simp only [Bool.or_eq_true, decide_eq_true_eq] at hw
  rcases hw with ((h1 | h2) | h3) | h4
  · rw [h1] at h; simp [isWordChar] at h
  · rw [h2] at h; simp [isWordChar] at h
  · rw [h3] at h; simp [isWordChar] at h
  · rw [h4] at h; simp [isWordChar] at h

theorem head?_dropWhile_not {p : α → Bool} {l : List α} :
    ∀ {a : α}, (l.dropWhile p).head? = some a → p a = false := by
  induction l with
  | nil => intro a h; simp [List.dropWhile] at h
  | cons x xs ih =>
    intro a h
    rw [List.dropWhile_cons] at h
    by_cases hp : p x = true
    · rw [if_pos hp] at h
      exact ih h
    · rw [if_neg hp] at h
      simp only [List.head?_cons, Option.some.injEq] at h
      subst h
      cases hb : p x
      · rfl
      · exact absurd hb hp

theorem dropWhile_eq_self_of_head {p : α → Bool} {l : List α}
    (h : ∀ a, l.head? = some a → p a = false) : l.dropWhile p = l := by
  cases l with
  | nil => rfl
  | cons x xs =>
    rw [List.dropWhile_cons, if_neg]
    rw [h x rfl]
    simp

theorem splitFirst_eq {p : α → Bool} :
    ∀ {l pre suf : List α} {x : α}, splitFirst p l = some (pre, x, suf) →
      l = pre ++ x :: suf ∧ p x = true
  | [], _, _, _, h => by simp [splitFirst] at h
  | y :: ys, pre, suf, x, h => by
    rw [splitFirst] at h
    by_cases hp : p y = true
    · rw [if_pos hp] at h
      simp only [Option.some.injEq, Prod.mk.injEq] at h
      obtain ⟨h1, h2, h3⟩ := h
      subst h1; subst h2; subst h3
      exact ⟨rfl, hp⟩
    · rw [if_neg hp] at h
      cases hsf : splitFirst p ys with
      | none => rw [hsf] at h; simp at h
      | some v =>
        rw [hsf] at h
        simp only [Option.map_some', Option.some.injEq, Prod.mk.injEq] at h
        obtain ⟨h1, h2, h3⟩ := h
        obtain ⟨hl, hx⟩ := splitFirst_eq
          (show splitFirst p ys = some (v.1, v.2.1, v.2.2) by rw [hsf])
        subst h1
        rw [← h2, ← h3]
        exact ⟨by rw [List.cons_append, ← hl], hx⟩

theorem mem_squashNonWord {c : Char} :
    ∀ {l : List Char}, c ∈ squashNonWord l →
      (c ∈ l ∧ isWordChar c = true) ∨ c = '-' := by
  intro l
  induction l with
  | nil => intro h; simp [squashNonWord] at h
  | cons x xs ih =>
    intro h
    cases xs with
    | nil =>
      by_cases hw : isWordChar x = true
      · rw [squashNonWord, if_pos hw] at h
        have h1 := List.mem_singleton.mp h
        subst h1
        exact Or.inl ⟨List.mem_cons_self _ _, hw⟩
      · rw [squashNonWord, if_neg hw] at h
        exact Or.inr (List.mem_singleton.mp h)
    | cons d ds =>
      by_cases hw : isWordChar x = true
      · rw [squashNonWord, if_pos hw] at h
        rcases List.mem_cons.mp h with h1 | h2
        · subst h1; exact Or.inl ⟨List.mem_cons_self _ _, hw⟩
        · rcases ih h2 with ⟨h3, h4⟩ | h5
          · exact Or.inl ⟨List.mem_cons_of_mem _ h3, h4⟩
          · exact Or.inr h5
      · rw [squashNonWord, if_neg hw] at h
        by_cases hd : isWordChar d = true
        · rw [if_pos hd] at h
          rcases List.mem_cons.mp h with h1 | h2
          · exact Or.inr h1
          · rcases ih h2 with ⟨h3, h4⟩ | h5
            · exact Or.inl ⟨List.mem_cons_of_mem _ h3, h4⟩
            · exact Or.inr h5
        · rw [if_neg hd] at h
          rcases ih h with ⟨h3, h4⟩ | h5
          · exact Or.inl ⟨List.mem_cons_of_mem _ h3, h4⟩
          · exact Or.inr h5

theorem squashNonWord_head_word {l : List Char} {a : Char}
    (hh : l.head? = some a) (hw : isWordChar a = true) :
    (squashNonWord l).head? = some a := by
  cases l with
  | nil => simp at hh
  | cons x xs =>
    simp only [List.head?_cons, Option.some.injEq] at hh
    subst hh
    cases xs with
    | nil => rw [squashNonWord, if_pos hw]; rfl
    | cons d ds => rw [squashNonWord, if_pos hw]; rfl

theorem squashNonWord_noDoubleDash : ∀ (l : List Char), NoDoubleDash (squashNonWord l) := by
  intro l
  induction l with
  | nil => simp [squashNonWord, NoDoubleDash]
  | cons x xs ih =>
    unfold NoDoubleDash at ih ⊢
    cases xs with
    | nil =>
      by_cases hw : isWordChar x = true
      · rw [squashNonWord, if_pos hw]; simp
      · rw [squashNonWord, if_neg hw]; simp
    | cons d ds =>
      by_cases hw : isWordChar x = true
      · rw [squashNonWord, if_pos hw, List.chain'_cons']
        refine ⟨?_, ih⟩
        intro y _ hcon
        exact isWordChar_ne_dash hw hcon.1
      · rw [squashNonWord, if_neg hw]
        by_cases hd : isWordChar d = true
        · rw [if_pos hd, List.chain'_cons']
          refine ⟨?_, ih⟩
          intro y hy hcon
          have hhd : (squashNonWord (d :: ds)).head? = some d :=
            squashNonWord_head_word rfl hd
          rw [Option.mem_def, hhd, Option.some.injEq] at hy
          subst hy
          exact isWordChar_ne_dash hd hcon.2
        · rw [if_neg hd]
          exact ih

theorem squashNonWord_eq_self : ∀ {l : List Char},
    (∀ c ∈ l, isWordChar c = true ∨ c = '-') → NoDoubleDash l →
      squashNonWord l = l := by
  intro l
  induction l with
  | nil => intro _ _; rfl
  | cons x xs ih =>
    intro hall hch
    unfold NoDoubleDash at hch
    rw [List.chain'_cons'] at hch
    cases xs with
    | nil =>
      rcases hall x (List.mem_cons_self x []) with hw | hd
      · rw [squashNonWord, if_pos hw]
      · subst hd
        rw [squashNonWord, if_neg (by simp [isWordChar])]
    | cons d ds =>
      rcases hall x (List.mem_cons_self x (d :: ds)) with hw | hd
      · rw [squashNonWord, if_pos hw,
          ih (fun c hc => hall c (List.mem_cons_of_mem _ hc)) hch.2]
      · subst hd
        rw [squashNonWord, if_neg (by simp [isWordChar])]
        have hdne : d ≠ '-' := by
          intro he
          exact hch.1 d rfl ⟨rfl, he⟩
        have hdw : isWordChar d = true := by
          rcases hall d (List.mem_cons_of_mem _ (List.mem_cons_self d ds)) with h | h
          · exact h
          · exact absurd h hdne
        rw [if_pos hdw,
          ih (fun c hc => hall c (List.mem_cons_of_mem _ hc)) hch.2]

theorem mem_stripDashes {c : Char} {l : List Char} (h : c ∈ stripDashes l) :
    c ∈ l := by
  unfold stripDashes at h
  rw [List.mem_reverse] at h
  have h2 := (List.dropWhile_sublist _).mem h
  rw [List.mem_reverse] at h2
  exact (List.dropWhile_sublist _).mem h2

theorem noDoubleDash_stripDashes {l : List Char} (h : NoDoubleDash l) :
    NoDoubleDash (stripDashes l) := by
  unfold NoDoubleDash at h ⊢
  unfold stripDashes
  have hsymm : ∀ {m : List Char},
      List.Chain' (fun a b : Char => ¬(a = '-' ∧ b = '-')) m →
        List.Chain' (flip (fun a b : Char => ¬(a = '-' ∧ b = '-'))) m :=
    fun hc => hc.imp (fun _ _ hab hcon => hab ⟨hcon.2, hcon.1⟩)
  have h1 := h.suffix (@List.dropWhile_suffix Char l (fun c => c == '-'))
  have h2 := List.chain'_reverse.mpr (hsymm h1)
  have h3 := h2.suffix
    (@List.dropWhile_suffix Char ((l.dropWhile (fun c => c == '-')).reverse) (fun c => c == '-'))
  exact List.chain'_reverse.mpr (hsymm h3)

theorem stripDashes_getLast {l : List Char} {a : Char}
    (h : (stripDashes l).getLast? = some a) : a ≠ '-' := by
  unfold stripDashes at h
  rw [List.getLast?_reverse] at h
  have := head?_dropWhile_not h
  simpa using this

theorem stripDashes_head {l : List Char} {a : Char}
    (h : (stripDashes l).head? = some a) : a ≠ '-' := by
  unfold stripDashes at h
  rw [List.head?_reverse] at h
  obtain ⟨t, ht⟩ := @List.dropWhile_suffix Char ((l.dropWhile (fun c => c == '-')).reverse)
    (fun c => c == '-')
  have hM : ((l.dropWhile (fun c => c == '-')).reverse).getLast? = some a := by
    rw [← ht, List.getLast?_append, h]
    rfl
  rw [List.getLast?_reverse] at hM
  have := head?_dropWhile_not hM
  simpa using this

theorem stripDashes_eq_self {l : List Char}
    (hh : ∀ a, l.head? = some a → a ≠ '-')
    (hl : ∀ a, l.getLast? = some a → a ≠ '-') : stripDashes l = l := by
  unfold stripDashes
  have h1 : l.dropWhile (fun c => c == '-') = l := by
    apply dropWhile_eq_self_of_head
    intro a ha
    simp [hh a ha]
  rw [h1]
  have h2 : l.reverse.dropWhile (fun c => c == '-') = l.reverse := by
    apply dropWhile_eq_self_of_head
    intro a ha
    rw [List.head?_reverse] at ha
    simp [hl a ha]
  rw [h2, List.reverse_reverse]

theorem slugify_data_chars {s : String} {c : Char} (h : c ∈ (slugify s).data) :
    (isWordChar c = true ∧ c.toLower = c) ∨ c = '-' := by
  have h2 := mem_stripDashes h
  rcases mem_squashNonWord h2 with ⟨h3, h4⟩ | h5
  · left
    refine ⟨h4, ?_⟩
    rcases List.mem_map.mp h3 with ⟨d, _, rfl⟩
    exact toLower_toLower d
  · right; exact h5

theorem slugify_noDoubleDash (s : String) : NoDoubleDash (slugify s).data :=
  noDoubleDash_stripDashes (squashNonWord_noDoubleDash _)

/-! ## Claim C9 -/

/-- C9: `slugify` is idempotent and normalizing: for every input string,
`slugify (slugify s) = slugify s`, and the output contains no uppercase
letter and no whitespace character, and neither starts nor ends with `'-'`. -/
theorem slugify_idempotent_normalizing (s : String) :
    slugify (slugify s) = slugify s
    ∧ (∀ c ∈ (slugify s).data, c.isUpper = false ∧ c.isWhitespace = false)
    ∧ (∀ a, (slugify s).data.head? = some a → a ≠ '-')
    ∧ (∀ a, (slugify s).data.getLast? = some a → a ≠ '-') := by
  refine ⟨?_, ?_, ?_, ?_⟩
  · have hmap : (slugify s).data.map Char.toLower = (slugify s).data := by
      have hfix : ∀ c ∈ (slugify s).data, Char.toLower c = c := by
        intro c hc
        rcases slugify_data_chars hc with ⟨_, hf⟩ | hdash
        · exact hf
        · subst hdash; decide
      calc (slugify s).data.map Char.toLower
          = (slugify s).data.map id := List.map_congr_left hfix
        _ = (slugify s).data := List.map_id _
    have hsq : squashNonWord (slugify s).data = (slugify s).data :=
      squashNonWord_eq_self
        (fun c hc => (slugify_data_chars hc).imp (fun h => h.1) id)
        (slugify_noDoubleDash s)
    have hst : stripDashes (slugify s).data = (slugify s).data :=
      stripDashes_eq_self (fun a ha => stripDashes_head ha)
        (fun a ha => stripDashes_getLast ha)
    show (⟨stripDashes (squashNonWord ((slugify s).data.map Char.toLower))⟩ : String)
        = slugify s
    rw [hmap, hsq, hst]
  · intro c hc
    rcases slugify_data_chars hc with ⟨hw, hf⟩ | hdash
    · exact ⟨isUpper_false_of_toLower_fixed hf, isWordChar_not_whitespace hw⟩
    · subst hdash; exact ⟨by decide, by decide⟩
  · exact fun a ha => stripDashes_head ha
  · exact fun a ha => stripDashes_getLast ha

/-- Witness for C9 at the concrete input `"Zeste Backend!"`
(whose slug is `"zeste-backend"`). -/
theorem slugify_idempotent_normalizing_witness :
    slugify (slugify "Zeste Backend!") = slugify "Zeste Backend!"
    ∧ ('z'.isUpper = false ∧ 'z'.isWhitespace = false)
    ∧ 'z' ≠ '-' ∧ 'd' ≠ '-' := by
  have h := slugify_idempotent_normalizing "Zeste Backend!"
  exact ⟨h.1, h.2.1 'z' (by decide), h.2.2.1 'z' (by decide), h.2.2.2 'd' (by decide)⟩

/-! ## Claim C2 -/

/-- C2: a POST to `/api/clerk-webhook` whose payload/headers fail signature
verification returns status 400 with the "Invalid signature" error and the
database state is completely unchanged. -/
theorem clerk_webhook_invalid_signature (s : Db) :
    clerk_webhook none s = (400, s) := rfl

/-! ## Claim C6 -/

/-- C6: a correctly signed organization.deleted event whose id matches an
existing restaurant removes that restaurant row together with every server
and dish row whose `restaurant_id` referenced it, leaving all other rows
unchanged; if no restaurant matches the id, the database is unchanged; the
endpoint returns 200 in both cases. -/
theorem organization_deleted_cascade (s : Db) (cid : String) :
    (∀ r, s.restaurants.find? (fun x => x.clerk_org_id == cid) = some r →
      clerk_webhook (some (.organizationDeleted (some cid))) s =
        (200, { users := s.users,
                restaurants := s.restaurants.filter (fun x => x.id != r.id),
                servers := s.servers.filter (fun x => x.restaurant_id != r.id),
                dishes := s.dishes.filter (fun x => x.restaurant_id != r.id),
                nextId := s.nextId }))
    ∧ (s.restaurants.find? (fun x => x.clerk_org_id == cid) = none →
        clerk_webhook (some (.organizationDeleted (some cid))) s = (200, s)) := by
  constructor
  · intro r hr
    simp only [clerk_webhook, processEvent, hr]
  · intro hr
    simp only [clerk_webhook, processEvent, hr]

/-- Witness for C6: deleting `org_1` removes its restaurant, its server and
its dish, and leaves the rows of `org_2` untouched. -/
theorem organization_deleted_cascade_witness :
    clerk_webhook (some (.organizationDeleted (some "org_1")))
      { users := [],
        restaurants := [mkRestaurant 1 "org_1" "One" "one", mkRestaurant 2 "org_2" "Two" "two"],
        servers := [⟨7, 1, "Ana", none⟩, ⟨8, 2, "Bob", none⟩],
        dishes := [⟨"Tarte", "dessert", 1⟩], nextId := 3 } =
      (200, { users := [],
              restaurants := [mkRestaurant 2 "org_2" "Two" "two"],
              servers := [⟨8, 2, "Bob", none⟩], dishes := [], nextId := 3 }) := by
  have h := (organization_deleted_cascade
      { users := [],
        restaurants := [mkRestaurant 1 "org_1" "One" "one", mkRestaurant 2 "org_2" "Two" "two"],
        servers := [⟨7, 1, "Ana", none⟩, ⟨8, 2, "Bob", none⟩],
        dishes := [⟨"Tarte", "dessert", 1⟩], nextId := 3 } "org_1").1
      (mkRestaurant 1 "org_1" "One" "one") (by decide)
  rw [h]
  decide

/-! ## Claim C8 -/

/-- C8: a correctly signed user.created or organization.created event whose
insert would violate a uniqueness constraint (duplicate key) is rolled back —
the database is exactly as before — and yet the endpoint responds 200
"success": the conflicting event is silently dropped. -/
theorem webhook_conflicting_create_dropped (s : Db) :
    (∀ cid email rest fn ln, email ≠ "" →
      (∃ u ∈ s.users, u.clerk_id = cid ∨ u.email = email) →
      clerk_webhook (some (.userCreated (some cid) (some email :: rest) fn ln)) s = (200, s))
    ∧ (∀ cid nm slugOpt sl, eventSlug slugOpt (some nm) = some sl →
      (∃ r ∈ s.restaurants, r.clerk_org_id = cid ∨ r.slug = sl) →
      clerk_webhook (some (.organizationCreated (some cid) (some nm) slugOpt)) s = (200, s)) := by
  constructor
  · intro cid email rest fn ln hne hconf
    obtain ⟨u, hu, hor⟩ := hconf
    have hall : s.users.all (fun u => (u.clerk_id != cid) && (u.email != email)) = false := by
      rw [List.all_eq_false]
      refine ⟨u, hu, ?_⟩
      simp only [Bool.and_eq_true, bne_iff_ne, ne_eq, not_and_or, not_not]
      tauto
    simp only [clerk_webhook, processEvent, if_neg hne, hall]
    rfl
  · intro cid nm slugOpt sl hsl hconf
    obtain ⟨r, hr, hor⟩ := hconf
    have hall : s.restaurants.all (fun r => (r.clerk_org_id != cid) && (r.slug != sl)) = false := by
      rw [List.all_eq_false]
      refine ⟨r, hr, ?_⟩
      simp only [Bool.and_eq_true, bne_iff_ne, ne_eq, not_and_or, not_not]
      tauto
    simp only [clerk_webhook, processEvent, hsl, hall]
    rfl

/-- Witness for C8: a user.created event for `user_2` reusing the email of the
existing `user_1` leaves the table unchanged and still reports success. -/
theorem webhook_conflicting_create_dropped_witness :
    clerk_webhook (some (.userCreated (some "user_2") [some "ana@zeste.app"] none none))
      { users := [⟨"user_1", "ana@zeste.app", none, none⟩] } =
      (200, { users := [⟨"user_1", "ana@zeste.app", none, none⟩] }) :=
  (webhook_conflicting_create_dropped
      { users := [⟨"user_1", "ana@zeste.app", none, none⟩] }).1
    "user_2" "ana@zeste.app" [] none none (by decide)
    ⟨⟨"user_1", "ana@zeste.app", none, none⟩, by decide, Or.inr rfl⟩

/-! ## Claim C3 -/

/-- Counterexample to C3 as stated: a correctly signed user.created event for
clerk id `user_2`, carrying the email address of an existing row with a
different clerk id, is processed (status 200), yet afterwards there is no row
at all whose clerk id is `user_2` — not the "exactly one mirroring row
regardless of the prior state" the claim demands: the handler inserts, it
does not upsert, and the conflicting insert is rolled back. -/
theorem webhook_upsert_counterexample :
    ((clerk_webhook (some (.userCreated (some "user_2") [some "eve@zeste.app"] (some "Eve") none))
        { users := [⟨"user_9", "eve@zeste.app", none, none⟩] }).2.users.countP
      (fun u => u.clerk_id == "user_2") = 0)
    ∧ (clerk_webhook (some (.userCreated (some "user_2") [some "eve@zeste.app"] (some "Eve") none))
        { users := [⟨"user_9", "eve@zeste.app", none, none⟩] }).1 = 200 := by
  decide

/-- C3 (amended): for a correctly signed user.created event carrying a
non-empty email and an id, and for a correctly signed organization.created
event carrying an id, a name and a computable slug, *provided no existing row
collides on a uniqueness constraint* (clerk_id/email for users,
clerk_org_id/slug for restaurants), after processing exactly one local row
has the event's external id, and it mirrors the event data (with the schema's
column defaults). -/
theorem webhook_create_mirrors_event (s : Db) :
    (∀ cid email rest fn ln, email ≠ "" →
      (∀ u ∈ s.users, u.clerk_id ≠ cid ∧ u.email ≠ email) →
      clerk_webhook (some (.userCreated (some cid) (some email :: rest) fn ln)) s =
        (200, { s with users := s.users ++ [⟨cid, email, fn, ln⟩] })
      ∧ (s.users ++ [(⟨cid, email, fn, ln⟩ : UserRow)]).countP (fun u => u.clerk_id == cid) = 1)
    ∧ (∀ cid nm slugOpt sl, eventSlug slugOpt (some nm) = some sl →
      (∀ r ∈ s.restaurants, r.clerk_org_id ≠ cid ∧ r.slug ≠ sl) →
      clerk_webhook (some (.organizationCreated (some cid) (some nm) slugOpt)) s =
        (200, { s with restaurants := s.restaurants ++ [mkRestaurant s.nextId cid nm sl],
                       nextId := s.nextId + 1 })
      ∧ (s.restaurants ++ [mkRestaurant s.nextId cid nm sl]).countP
          (fun r => r.clerk_org_id == cid) = 1) := by
  constructor
  · intro cid email rest fn ln hne hnoc
    have hall : s.users.all (fun u => (u.clerk_id != cid) && (u.email != email)) = true := by
      rw [List.all_eq_true]
      intro u hu
      simp only [Bool.and_eq_true, bne_iff_ne]
      exact hnoc u hu
    constructor
    · simp only [clerk_webhook, processEvent, if_neg hne, hall]
      rfl
    · rw [List.countP_append]
      have h0 : s.users.countP (fun u => u.clerk_id == cid) = 0 := by
        rw [List.countP_eq_zero]
        intro u hu
        simp only [beq_iff_eq]
        exact (hnoc u hu).1
      rw [h0]
      simp
  · intro cid nm slugOpt sl hsl hnoc
    have hall : s.restaurants.all (fun r => (r.clerk_org_id != cid) && (r.slug != sl)) = true := by
      rw [List.all_eq_true]
      intro r hr
      simp only [Bool.and_eq_true, bne_iff_ne]
      exact hnoc r hr
    constructor
    · simp only [clerk_webhook, processEvent, hsl, hall]
      rfl
    · rw [List.countP_append]
      have h0 : s.restaurants.countP (fun r => r.clerk_org_id == cid) = 0 := by
        rw [List.countP_eq_zero]
        intro r hr
        simp only [beq_iff_eq]
        exact (hnoc r hr).1
      rw [h0]
      simp [mkRestaurant]

/-- Witness for C3 (amended): in an empty database, user.created for
`user_1` inserts exactly one mirroring row. -/
theorem webhook_create_mirrors_event_witness :
    clerk_webhook (some (.userCreated (some "user_1") [some "ana@zeste.app"] (some "Ana") (some "B")))
        ({} : Db) =
      (200, { users := [⟨"user_1", "ana@zeste.app", some "Ana", some "B"⟩] })
    ∧ ([(⟨"user_1", "ana@zeste.app", some "Ana", some "B"⟩ : UserRow)].countP
        (fun u => u.clerk_id == "user_1") = 1) :=
  (webhook_create_mirrors_event {}).1 "user_1" "ana@zeste.app" [] (some "Ana") (some "B")
    (by decide) (by intro u hu; simp at hu)

/-! ## Claim C7 -/

/-- Counterexample to C7 as stated: a correctly signed organization.updated
event for `org_1` carrying name "New" and the (present) slug "two" — which is
the slug of the other restaurant — is answered 200 but the commit violates
the slug uniqueness constraint and rolls back: the restaurant's name is NOT
set to the event's name as the claim requires. -/
theorem organization_updated_counterexample :
    clerk_webhook (some (.organizationUpdated (some "org_1") (some "New") (some "two")))
      { restaurants := [mkRestaurant 1 "org_1" "One" "one", mkRestaurant 2 "org_2" "Two" "two"] } =
      (200, { restaurants :=
        [mkRestaurant 1 "org_1" "One" "one", mkRestaurant 2 "org_2" "Two" "two"] }) := by
  decide

/-- C7 (amended): for a correctly signed organization.updated event: if a
restaurant row with the event's id exists, the event carries a name, and the
resulting slug — the event's slug when non-empty, otherwise `slugify` of the
name — collides with no other restaurant's slug, then that row's name and
slug are set accordingly, all its other fields are unchanged, and the
response is 200; if no row matches the id, the database is unchanged and the
endpoint still returns 200. -/
theorem organization_updated_applies (s : Db) (cid : String) :
    (∀ pre r suf nm slugOpt sl,
      splitFirst (fun x => x.clerk_org_id == cid) s.restaurants = some (pre, r, suf) →
      eventSlug slugOpt (some nm) = some sl →
      (∀ x ∈ pre ++ suf, x.slug ≠ sl) →
      clerk_webhook (some (.organizationUpdated (some cid) (some nm) slugOpt)) s =
        (200, { s with restaurants := pre ++ { r with name := nm, slug := sl } :: suf }))
    ∧ (splitFirst (fun x => x.clerk_org_id == cid) s.restaurants = none →
      ∀ nmOpt slugOpt,
        clerk_webhook (some (.organizationUpdated (some cid) nmOpt slugOpt)) s = (200, s)) := by
  constructor
  · intro pre r suf nm slugOpt sl hsp hsl hnoc
    have hall : (pre ++ suf).all (fun x => x.slug != sl) = true := by
      rw [List.all_eq_true]
      intro x hx
      simpa [bne_iff_ne] using hnoc x hx
    simp only [clerk_webhook, processEvent, hsp, hsl, hall]
    rfl
  · intro hsp nmOpt slugOpt
    simp only [clerk_webhook, processEvent, hsp]

/-- Witness for C7 (amended): updating `org_1` with name "New Name" and no
slug sets the name and the slug `slugify "New Name" = "new-name"`, leaving
every other column of the row unchanged. -/
theorem organization_updated_applies_witness :
    clerk_webhook (some (.organizationUpdated (some "org_1") (some "New Name") none))
      { restaurants := [mkRestaurant 1 "org_1" "One" "one"] } =
      (200, { restaurants :=
        [{ mkRestaurant 1 "org_1" "One" "one" with name := "New Name", slug := "new-name" }] }) := by
  have h := (organization_updated_applies
      { restaurants := [mkRestaurant 1 "org_1" "One" "one"] } "org_1").1
    [] (mkRestaurant 1 "org_1" "One" "one") [] "New Name" none "new-name"
    (by decide) (by decide) (by intro x hx; simp at hx)
  exact h

/-! ## Claim C4 -/

/-- C4: starting from a database state in which the external ids
(`User.clerk_id`, `Restaurant.clerk_org_id`), `Restaurant.slug` and
`User.email` are pairwise distinct across rows, processing any single
webhook request — any of the four handled event types, any other event, or
a request failing signature verification — yields a state in which they are
still pairwise distinct. -/
theorem webhook_preserves_uniqueness (v : Option WebhookEvent) (s : Db)
    (h : DbInv s) : DbInv (clerk_webhook v s).2 := by
  obtain ⟨hu, hr⟩ := h
  cases v with
  | none => exact ⟨hu, hr⟩
  | some e =>
    cases e with
    | unhandled => exact ⟨hu, hr⟩
    | userCreated idOpt emails fn ln =>
      cases emails with
      | nil => exact ⟨hu, hr⟩
      | cons e rest =>
        cases e with
        | none => exact ⟨hu, hr⟩
        | some email =>
          by_cases hne : email = ""
          · simp only [clerk_webhook, processEvent, if_pos hne]; exact ⟨hu, hr⟩
          · cases idOpt with
            | none => simp only [clerk_webhook, processEvent, if_neg hne]; exact ⟨hu, hr⟩
            | some cid =>
              simp only [clerk_webhook, processEvent, if_neg hne]
              by_cases hall :
                  s.users.all (fun u => (u.clerk_id != cid) && (u.email != email)) = true
              · rw [if_pos hall]
                refine ⟨?_, hr⟩
                rw [UsersDistinct, List.pairwise_append]
                refine ⟨hu, List.pairwise_singleton _ _, ?_⟩
                intro a ha b hb
                rw [List.mem_singleton] at hb
                subst hb
                have hx := List.all_eq_true.mp hall a ha
                simp only [Bool.and_eq_true, bne_iff_ne] at hx
                exact hx
              · rw [if_neg hall]; exact ⟨hu, hr⟩
    | organizationCreated idOpt nameOpt slugOpt =>
      cases heS : eventSlug slugOpt nameOpt with
      | none => simp only [clerk_webhook, processEvent, heS]; exact ⟨hu, hr⟩
      | some sl =>
        cases idOpt with
        | none => simp only [clerk_webhook, processEvent, heS]; exact ⟨hu, hr⟩
        | some cid =>
          cases nameOpt with
          | none => simp only [clerk_webhook, processEvent, heS]; exact ⟨hu, hr⟩
          | some nm =>
            simp only [clerk_webhook, processEvent, heS]
            by_cases hall :
                s.restaurants.all (fun x => (x.clerk_org_id != cid) && (x.slug != sl)) = true
            · rw [if_pos hall]
              refine ⟨hu, ?_⟩
              rw [RestaurantsDistinct, List.pairwise_append]
              refine ⟨hr, List.pairwise_singleton _ _, ?_⟩
              intro a ha b hb
              rw [List.mem_singleton] at hb
              subst hb
              have hx := List.all_eq_true.mp hall a ha
              simp only [Bool.and_eq_true, bne_iff_ne] at hx
              exact hx
            · rw [if_neg hall]; exact ⟨hu, hr⟩
    | organizationUpdated idOpt nameOpt slugOpt =>
      cases idOpt with
      | none => exact ⟨hu, hr⟩
      | some cid =>
        cases hsp : splitFirst (fun x => x.clerk_org_id == cid) s.restaurants with
        | none => simp only [clerk_webhook, processEvent, hsp]; exact ⟨hu, hr⟩
        | some t =>
          obtain ⟨pre, r, suf⟩ := t
          obtain ⟨hl, -⟩ := splitFirst_eq hsp
          cases heS : eventSlug slugOpt nameOpt with
          | none => simp only [clerk_webhook, processEvent, hsp, heS]; exact ⟨hu, hr⟩
          | some sl =>
            cases nameOpt with
            | none => simp only [clerk_webhook, processEvent, hsp, heS]; exact ⟨hu, hr⟩
            | some nm =>
              by_cases hall : (pre ++ suf).all (fun x => x.slug != sl) = true
              · simp only [clerk_webhook, processEvent, hsp, heS, if_pos hall]
                refine ⟨hu, ?_⟩
                have hinv : RestaurantsDistinct (pre ++ r :: suf) := by rw [← hl]; exact hr
                rw [RestaurantsDistinct, List.pairwise_append] at hinv
                obtain ⟨hpre, hcons, hcross⟩ := hinv
                rw [List.pairwise_cons] at hcons
                obtain ⟨hrs, hsuf⟩ := hcons
                have hslug : ∀ x ∈ pre ++ suf, x.slug ≠ sl := by
                  intro x hx
                  have := List.all_eq_true.mp hall x hx
                  simpa [bne_iff_ne] using this
                rw [RestaurantsDistinct, List.pairwise_append]
                refine ⟨hpre, ?_, ?_⟩
                · rw [List.pairwise_cons]
                  refine ⟨?_, hsuf⟩
                  intro b hb
                  exact ⟨(hrs b hb).1,
                    fun hbs => hslug b (List.mem_append_right _ hb) hbs.symm⟩
                · intro a ha b hb
                  rw [List.mem_cons] at hb
                  rcases hb with hb | hb
                  · subst hb
                    refine ⟨(hcross a ha r (List.mem_cons_self _ _)).1, ?_⟩
                    exact fun has => hslug a (List.mem_append_left _ ha) has
                  · exact hcross a ha b (List.mem_cons_of_mem _ hb)
              · simp only [clerk_webhook, processEvent, hsp, heS, if_neg hall]
                exact ⟨hu, hr⟩
    | organizationDeleted idOpt =>
      cases idOpt with
      | none => exact ⟨hu, hr⟩
      | some cid =>
        cases hf : s.restaurants.find? (fun x => x.clerk_org_id == cid) with
        | none => simp only [clerk_webhook, processEvent, hf]; exact ⟨hu, hr⟩
        | some r =>
          simp only [clerk_webhook, processEvent, hf]
          exact ⟨hu, List.Pairwise.sublist (List.filter_sublist _) hr⟩

/-- Witness for C4: the invariant holds of the empty database and is
preserved by an organization.created event inserting a first row. -/
theorem webhook_preserves_uniqueness_witness :
    DbInv (clerk_webhook (some (.organizationCreated (some "org_1") (some "Café Zeste") none))
      ({} : Db)).2 :=
  webhook_preserves_uniqueness _ {} ⟨List.Pairwise.nil, List.Pairwise.nil⟩

/-! ## Claim C5 -/

/-- Counterexample to C5 as stated: a token-verified request whose claims
carry the empty string as `org_id` (with admin role), against an empty
database.  The claims do contain an org_id and no restaurant matches it, so
the claim requires 404 — but the code's truthiness test (`if not org_id`)
answers 401. -/
theorem restaurant_settings_gate_counterexample :
    restaurant_settings id { org_id := some "", org_role := some "admin" } .GET {} {} =
      (401, ({} : Db)) := by
  decide

/-- C5 (amended): access to restaurant settings is gated by the claims map:
for a request that passed token verification, a missing — or empty, by the
code's falsiness test — `org_id` is answered 401; otherwise, when no
restaurant row matches the claimed org_id the response is 404; when the
caller's org_role is neither 'org:admin' nor 'admin' the response is 403; in
each of these cases no restaurant field is modified (the state is returned
unchanged); only an admin caller with a matching restaurant reaches the
GET/PUT logic. -/
theorem restaurant_settings_gate (san : String → String) (c : ClaimsMap)
    (m : HttpMethod) (f : SettingsForm) (s : Db) :
    ((c.org_id = none ∨ c.org_id = some "") →
      restaurant_settings san c m f s = (401, s))
    ∧ (∀ oid, c.org_id = some oid → oid ≠ "" →
        (splitFirst (fun r => r.clerk_org_id == oid) s.restaurants = none →
          restaurant_settings san c m f s = (404, s))
        ∧ (∀ pre r suf,
            splitFirst (fun r => r.clerk_org_id == oid) s.restaurants = some (pre, r, suf) →
            (is_admin c = false → restaurant_settings san c m f s = (403, s))
            ∧ (is_admin c = true →
                restaurant_settings san c m f s =
                  (match m with
                   | .GET => (200, s)
                   | .PUT => (200, { s with
                       restaurants := pre ++ applyPut san r f :: suf }))))) := by
  refine ⟨?_, ?_⟩
  · intro hc
    rcases hc with hc | hc <;> simp [restaurant_settings, hc]
  · intro oid hoid hne
    refine ⟨?_, ?_⟩
    · intro hsp
      simp only [restaurant_settings, hoid, hsp, if_neg hne]
    · intro pre r suf hsp
      refine ⟨?_, ?_⟩
      · intro hadm
        simp [restaurant_settings, hoid, hsp, if_neg hne, hadm]
      · intro hadm
        simp only [restaurant_settings, hoid, hsp, if_neg hne, hadm, if_true]

/-- Witness for C5: an admin whose claims name `org_1`, which exists, reaches
the GET logic (the settings are returned with status 200, state untouched). -/
theorem restaurant_settings_gate_witness :
    restaurant_settings id { org_id := some "org_1", org_role := some "admin" } .GET {}
      { restaurants := [mkRestaurant 1 "org_1" "One" "one"] } =
      (200, { restaurants := [mkRestaurant 1 "org_1" "One" "one"] }) := by
  have h := (((restaurant_settings_gate id
      { org_id := some "org_1", org_role := some "admin" } .GET {}
      { restaurants := [mkRestaurant 1 "org_1" "One" "one"] }).2 "org_1" rfl
      (by decide)).2 [] (mkRestaurant 1 "org_1" "One" "one") [] (by decide)).2 (by decide)
  exact h

/-! ## Claim C10 -/

/-- C10: for a PUT by an admin (claims naming an existing restaurant): the
form fields name, primaryColor, googleLink and tripadvisorLink are applied —
each keeping its previous value when absent from the form — while slug,
clerk_org_id and enabled_languages are never modified; and when the uploaded
logo is absent, has an empty filename, or has an extension outside
{png, jpg, jpeg, gif}, logo_url is unchanged as well. -/
theorem restaurant_settings_put_frame (san : String → String) (c : ClaimsMap)
    (f : SettingsForm) (s : Db) (oid : String) (pre suf : List RestaurantRow)
    (r : RestaurantRow)
    (hoid : c.org_id = some oid) (hne : oid ≠ "")
    (hsp : splitFirst (fun x => x.clerk_org_id == oid) s.restaurants = some (pre, r, suf))
    (hadm : is_admin c = true) :
    restaurant_settings san c .PUT f s =
      (200, { s with restaurants := pre ++ applyPut san r f :: suf })
    ∧ (applyPut san r f).name = f.name.getD r.name
    ∧ (applyPut san r f).primary_color = f.primaryColor.getD r.primary_color
    ∧ (applyPut san r f).google_link =
        (match f.googleLink with | some v => some v | none => r.google_link)
    ∧ (applyPut san r f).tripadvisor_link =
        (match f.tripadvisorLink with | some v => some v | none => r.tripadvisor_link)
    ∧ (applyPut san r f).slug = r.slug
    ∧ (applyPut san r f).clerk_org_id = r.clerk_org_id
    ∧ (applyPut san r f).enabled_languages = r.enabled_languages
    ∧ ((f.logo = none ∨ f.logo = some "" ∨
          (∀ fn, f.logo = some fn → allowed_file fn = false)) →
        (applyPut san r f).logo_url = r.logo_url) := by
  refine ⟨?_, ?_⟩
  · simp only [restaurant_settings, hoid, hsp, if_neg hne, hadm, if_true]
  · simp only [applyPut]
    cases hlogo : f.logo with
    | none =>
      rw [applyLogo]
      exact ⟨rfl, rfl, rfl, rfl, rfl, rfl, rfl, fun _ => rfl⟩
    | some fn =>
      rw [applyLogo]
      by_cases hok : (fn != "" && allowed_file fn) = true
      · rw [if_pos hok]
        refine ⟨rfl, rfl, rfl, rfl, rfl, rfl, rfl, ?_⟩
        intro hbad
        rcases hbad with hb | hb | hb
        · cases hb
        · simp only [Option.some.injEq] at hb
          subst hb
          simp at hok
        · have := hb fn rfl
          simp [this] at hok
      · rw [if_neg hok]
        exact ⟨rfl, rfl, rfl, rfl, rfl, rfl, rfl, fun _ => rfl⟩

/-- Witness for C10: an admin PUT with a new name and no uploaded logo
applies the name and leaves logo_url (and slug, clerk_org_id,
enabled_languages) unchanged. -/
theorem restaurant_settings_put_frame_witness :
    restaurant_settings id { org_id := some "org_1", org_role := some "org:admin" } .PUT
      { name := some "Chez Zeste" }
      { restaurants := [mkRestaurant 1 "org_1" "One" "one"] } =
      (200, { restaurants := [applyPut id (mkRestaurant 1 "org_1" "One" "one")
          { name := some "Chez Zeste" }] })
    ∧ (applyPut id (mkRestaurant 1 "org_1" "One" "one")
        { name := some "Chez Zeste" }).logo_url =
        (mkRestaurant 1 "org_1" "One" "one").logo_url := by
  have h := restaurant_settings_put_frame id
      { org_id := some "org_1", org_role := some "org:admin" }
      { name := some "Chez Zeste" }
      { restaurants := [mkRestaurant 1 "org_1" "One" "one"] } "org_1"
      [] [] (mkRestaurant 1 "org_1" "One" "one") rfl (by decide) (by decide) (by decide)
  exact ⟨h.1, h.2.2.2.2.2.2.2.2 (Or.inl rfl)⟩

/-! ## Claim C1 -/

/-- Counterexample to C1 as stated: a request to a protected route whose
Authorization header is the single field "sometoken" (no space).  Even with
an introspection oracle that would answer 200 and active=true, the code's
`auth_header.split(' ')[1]` raises IndexError, swallowed by the generic
`except` into a 401: the handler does not run, contrary to the claim's "if
introspection returns 200 with active=true ... the handler runs". -/
theorem requires_auth_counterexample :
    requires_auth (fun _ => ⟨200, true, some {}⟩) (some "sometoken") = none := rfl

/-- C1 (amended): for every request to a protected route: if the
Authorization header is absent, or no token can be extracted from it (the
header has no second space-separated field), or the identity provider's
introspection response for the extracted token has a non-200 status, or it
reports the token as not active, the wrapped handler is never invoked and the
request fails with 401 Unauthorized; if a token is extracted and introspection
returns 200 with active=true, `request.claims` is set to the claims map of
the introspection response (defaulting to the empty map) and the handler
runs. -/
theorem requires_auth_spec (introspect : String → IntrospectionResponse)
    (authHeader : Option String) :
    (authHeader = none → requires_auth introspect authHeader = none)
    ∧ (∀ h, authHeader = some h →
        ((pySplitSpaces h.data).get? 1 = none →
          requires_auth introspect authHeader = none)
        ∧ (∀ tok, (pySplitSpaces h.data).get? 1 = some tok →
            ((introspect ⟨tok⟩).status ≠ 200 →
              requires_auth introspect authHeader = none)
            ∧ ((introspect ⟨tok⟩).active = false →
              requires_auth introspect authHeader = none)
            ∧ ((introspect ⟨tok⟩).status = 200 → (introspect ⟨tok⟩).active = true →
              requires_auth introspect authHeader =
                some ((introspect ⟨tok⟩).claims.getD {})))) := by
  refine ⟨?_, ?_⟩
  · intro hh; subst hh; rfl
  · intro h hh
    subst hh
    refine ⟨?_, ?_⟩
    · intro hsp
      simp only [requires_auth, hsp]
    · intro tok hsp
      refine ⟨?_, ?_, ?_⟩
      · intro hst
        simp only [requires_auth, hsp, if_neg hst]
      · intro hact
        simp only [requires_auth, hsp, hact]
        by_cases hst : (introspect ⟨tok⟩).status = 200
        · simp [if_pos hst]
        · simp [if_neg hst]
      · intro hst hact
        simp only [requires_auth, hsp, if_pos hst, hact, if_true]

/-- Witness for C1 (amended): with the header "Bearer tok" and an oracle
answering 200/active with a claims object, the handler runs with those
claims. -/
theorem requires_auth_spec_witness :
    requires_auth (fun _ => ⟨200, true, some { org_id := some "org_1" }⟩)
      (some "Bearer tok") = some { org_id := some "org_1" } := by
  have h := ((requires_auth_spec
      (fun _ => ⟨200, true, some { org_id := some "org_1" }⟩)
      (some "Bearer tok")).2 "Bearer tok" rfl).2 "tok".data (by decide)
  exact h.2.2 rfl rfl

end Zeste
